import Mathlib

/-!
Shallow embedding of the `launch` deployment server (Rust) for specification
checking.  The embedding mirrors, definition by definition:

* `src/server/compressor.rs` — `Statistics`, `Algorithm`, `Compressor`,
  `Compressor::compress`, `match_extension`;
* `src/server/storage.rs`    — `BundleStorage::{remove, enumerate, metadata, unpack}`;
* `src/server/manager.rs`    — `BundleManager::{deploy, verify_bundle, remove, load_all}`;
* `src/server/http.rs`       — request routing in `Server::listen`,
  `Server::{reload_config, reload_ingress, handle_post, handle_delete}`.

Filesystem and external-process effects are made explicit: an archive on disk
is a value carrying the tar member scan, the unpack outcome and the directory
tree that unpacking produces; each file in a tree carries the byte count (or
I/O error) that `Compressor::apply` would produce for each algorithm; the
outcomes of `TempDir` allocation, the Caddy admin API calls and the ingress
update script are inputs.  `u64` arithmetic is modelled on `Nat`: the sums
involved are byte counts of files on one disk and cannot reach `2^64`.
-/

namespace Launch

/-- `ulid::Ulid`, a 128-bit identifier.  Only equality matters to the server. -/
abbrev Ulid := Nat

/-- `io::Error`, split by the `ErrorKind`s the server inspects
(`NotFound` vs everything else); carries the display message. -/
inductive Err
  | notFound (msg : String)
  | other (msg : String)
deriving DecidableEq, Repr

/-- `e.to_string()` on an `io::Error` built from a message. -/
def Err.description : Err → String
  | .notFound m => m
  | .other m => m

/-! ## Compression engine (`src/server/compressor.rs`) -/

/-- `Algorithm` (compressor.rs). -/
inductive Algorithm
  | Gzip
  | Brotli
deriving DecidableEq, Repr

/-- `HashMap<Algorithm, u64>` as an association list with unique keys;
`insert` replaces the entry for the key, exactly like `HashMap::insert`. -/
abbrev AlgMap := List (Algorithm × Nat)

def AlgMap.insert (m : AlgMap) (a : Algorithm) (v : Nat) : AlgMap :=
  (a, v) :: m.filter (fun p => !(p.1 == a))

def AlgMap.lookup (m : AlgMap) (a : Algorithm) : Option Nat :=
  (m.find? (fun p => p.1 == a)).map (fun p => p.2)

/-- `Statistics` (compressor.rs). -/
structure Statistics where
  size : Nat
  compressible : Nat
  compressed : AlgMap
deriving DecidableEq, Repr

/-- `Compressor` (compressor.rs). -/
structure Compressor where
  algorithms : List Algorithm
  min_size : Nat
deriving DecidableEq, Repr

/-- `Compressor::default()`: brotli and gzip, 1400-byte threshold. -/
def Compressor.defaultConfig : Compressor :=
  { algorithms := [.Brotli, .Gzip], min_size := 1400 }

/-- One step of the `WalkDir` iteration over the unpacked tree.  `walkError?`
is a failure of the iterator itself or of `entry.metadata()`; `ext?` is
`path.extension()`; `applyResult a` is the outcome of `Compressor::apply(a, path)`
(the byte count written, or the I/O error that aborts the pass). -/
structure FsEntry where
  walkError? : Option Err
  isFile : Bool
  ext? : Option String
  size : Nat
  applyResult : Algorithm → Except Err Nat

/-- `str::eq_ignore_ascii_case` (both `Char.toLower` and Rust's
`eq_ignore_ascii_case` only fold ASCII letters). -/
def eqIgnoreAsciiCase (a b : String) : Bool :=
  a.toList.map Char.toLower == b.toList.map Char.toLower

/-- `match_extension` (compressor.rs, lines 140-150). -/
def match_extension (ext? : Option String) (extensions : List String) : Bool :=
  match ext? with
  | some extension => extensions.any (fun expected => eqIgnoreAsciiCase extension expected)
  | none => false

/-- The inner `for algorithm in self.algorithms` loop of `Compressor::compress`:
each `Compressor::apply` result is written with `HashMap::insert`. -/
def applyAll (e : FsEntry) : List Algorithm → AlgMap → Except Err AlgMap
  | [], m => .ok m
  | a :: rest, m =>
    match e.applyResult a with
    | .ok compressed => applyAll e rest (m.insert a compressed)
    | .error err => .error err

/-- The `for entry in WalkDir::new(dir)` loop of `Compressor::compress`,
carrying the three accumulators `total_size`, `total_compressible`,
`total_compressed`. -/
def compressGo (c : Compressor) (filter : List String) :
    List FsEntry → Nat → Nat → AlgMap → Except Err Statistics
  | [], size, compressible, compressed =>
    .ok { size := size, compressible := compressible, compressed := compressed }
  | e :: rest, size, compressible, compressed =>
    match e.walkError? with
    | some err => .error err
    | none =>
      let size := size + e.size
      if e.size < c.min_size || !e.isFile || !match_extension e.ext? filter then
        compressGo c filter rest size compressible compressed
      else
        let compressible := compressible + e.size
        match applyAll e c.algorithms compressed with
        | .ok compressed => compressGo c filter rest size compressible compressed
        | .error err => .error err

/-- `Compressor::compress` (compressor.rs, lines 38-69), over the walk of the
directory. -/
def Compressor.compress (c : Compressor) (walk : List FsEntry) (filter : List String) :
    Except Err Statistics :=
  compressGo c filter walk 0 0 []

/-- An entry is eligible for compression when it survives the `continue`
guard of `Compressor::compress`. -/
def eligible (c : Compressor) (filter : List String) (e : FsEntry) : Bool :=
  !(e.size < c.min_size || !e.isFile || !match_extension e.ext? filter)

/-- `Compressor::apply`'s byte count at an entry, for spec-side totals. -/
def csizeOf (e : FsEntry) (a : Algorithm) : Nat :=
  match e.applyResult a with
  | .ok v => v
  | .error _ => 0

/-- Modelled from the spec: "for each configured algorithm, write a compressed
copy and add the resulting byte count to that algorithm's running total" —
the per-algorithm SUM over all eligible files. -/
def specCompressedTotal (c : Compressor) (walk : List FsEntry) (filter : List String)
    (a : Algorithm) : Nat :=
  (walk.filter (eligible c filter)).foldl (fun acc e => acc + csizeOf e a) 0

/-- Modelled from the spec: "the size field equals the sum of the sizes of
every file" — the sum over file entries only. -/
def specFileSizeTotal (walk : List FsEntry) : Nat :=
  (walk.filter (fun e => e.isFile)).foldl (fun acc e => acc + e.size) 0

/-! ## Archive store (`src/server/storage.rs`) -/

/-- `BundleConfig` (shared/bundle.rs). -/
structure BundleConfig where
  name : String
  domain : String
  compress : List String
  fallback : Option String
deriving DecidableEq, Repr

/-- One member of the uploaded tar container: its path (as components, since
`Path::ends_with` compares whole components) and, when the member is the
config, the result of `serde_json::from_reader` on its payload. -/
structure TarEntry where
  path : List String
  config? : Option BundleConfig

/-- An archive file on disk: the tar member scan that `metadata` performs,
the outcome of `Archive::unpack`, and the directory tree that unpacking
produces (as the `WalkDir` walk the compressor will make over it). -/
structure Archive where
  entries : List TarEntry
  unpackResult : Except Err Unit
  walk : List FsEntry

/-- The storage directory: archive files keyed by identifier (the
`{id}.launch` naming makes the key the identifier itself). -/
abbrev Store := List (Ulid × Archive)

def Store.find (s : Store) (id : Ulid) : Option Archive :=
  (List.find? (fun p => p.1 == id) s).map (fun p => p.2)

def Store.insert (s : Store) (id : Ulid) (a : Archive) : Store :=
  (id, a) :: s.filter (fun p => !(p.1 == id))

def Store.erase (s : Store) (id : Ulid) : Store :=
  s.filter (fun p => !(p.1 == id))

/-- The message of the `ErrorKind::NotFound` error `File::open` raises on a
missing archive file. -/
def enoentMsg : String := "No such file or directory (os error 2)"

/-- `std::fs::remove_file` on the archive path: deletes the file, or fails
with `NotFound` when it does not exist. -/
def remove_file (s : Store) (id : Ulid) : Except Err Store :=
  match s.find id with
  | some _ => .ok (s.erase id)
  | none => .error (.notFound enoentMsg)

/-- `BundleStorage::remove` (storage.rs, lines 22-28): a `NotFound` deletion
error is converted to success. -/
def BundleStorage.remove (s : Store) (id : Ulid) : Except Err Store :=
  match remove_file s id with
  | .ok s => .ok s
  | .error (.notFound _) => .ok s
  | .error e => .error e

/-- `BundleStorage::enumerate` (storage.rs, lines 37-65): the identifiers
parsed back from the `*.launch` filenames on disk. -/
def BundleStorage.enumerate (s : Store) : List Ulid :=
  s.map (fun p => p.1)

/-- The member scan inside `BundleStorage::metadata`: first entry whose path
ends with the component `launch.config` wins; a JSON parse failure is a
`serde_json` error; no such member is `NotFound "no launch config found"`. -/
def findConfig : List TarEntry → Except Err BundleConfig
  | [] => .error (.notFound "no launch config found")
  | e :: rest =>
    if e.path.getLast? == some "launch.config" then
      match e.config? with
      | some options => .ok options
      | none => .error (.other "invalid launch config")
    else
      findConfig rest

/-- `BundleStorage::metadata` (storage.rs, lines 67-84). -/
def BundleStorage.metadata (s : Store) (id : Ulid) : Except Err BundleConfig :=
  match s.find id with
  | none => .error (.notFound enoentMsg)
  | some archive => findConfig archive.entries

/-- `BundleStorage::unpack` (storage.rs, lines 86-92). -/
def BundleStorage.unpack (s : Store) (id : Ulid) : Except Err Unit :=
  match s.find id with
  | none => .error (.notFound enoentMsg)
  | some archive => archive.unpackResult

/-- The directory tree `unpack` leaves at the destination, as walked by the
compressor (empty when the archive is absent, in which case `unpack` failed
and the walk is never taken). -/
def Store.walkOf (s : Store) (id : Ulid) : List FsEntry :=
  match s.find id with
  | some archive => archive.walk
  | none => []

/-! ## Bundle registry (`src/server/manager.rs`) -/

/-- `ActiveBundle` (manager.rs): the `TempDir` is modelled by its token. -/
structure ActiveBundle where
  root : Nat
  config : BundleConfig
  stats : Statistics
deriving DecidableEq, Repr

/-- `BundleStatus` (manager.rs). -/
inductive BundleStatus
  | Active (bundle : ActiveBundle)
  | Failed (error : String)
deriving DecidableEq, Repr

/-- `HashMap<Ulid, BundleStatus>` as an association list; `Registry.insert`
replaces like `HashMap::insert`. -/
abbrev Registry := List (Ulid × BundleStatus)

def Registry.insert (reg : Registry) (id : Ulid) (st : BundleStatus) : Registry :=
  (id, st) :: reg.filter (fun p => !(p.1 == id))

def Registry.lookup (reg : Registry) (id : Ulid) : Option BundleStatus :=
  (List.find? (fun p => p.1 == id) reg).map (fun p => p.2)

def Registry.erase (reg : Registry) (id : Ulid) : Registry :=
  reg.filter (fun p => !(p.1 == id))

/-- `BundleManager` (manager.rs). -/
structure BundleManager where
  bundles : Registry
  storage : Store
  compressor : Compressor

/-- The `active_domains` collection built inside `BundleManager::verify_bundle`:
domains of all Active entries whose identifier differs from `id`. -/
def activeDomainsExcept (reg : Registry) (id : Ulid) : List String :=
  (reg.filter (fun p => !(p.1 == id))).filterMap
    (fun p =>
      match p.2 with
      | .Active bundle => some bundle.config.domain
      | _ => none)

/-- `BundleManager::verify_bundle` (manager.rs, lines 74-95): collect the
domains of all *other* Active entries and fail when the candidate's domain
is among them. -/
def BundleManager.verify_bundle (m : BundleManager) (id : Ulid) (config : BundleConfig) :
    Except Err Unit :=
  if (activeDomainsExcept m.bundles id).contains config.domain then
    .error (.other "domain already in use by another bundle")
  else
    .ok ()

/-- `BundleManager::deploy` (manager.rs, lines 53-72).  `td` is the outcome
of `TempDir::with_prefix("launch-")`.  Returns the result together with the
manager, every failure path leaving it untouched; success installs the new
Active status with `HashMap::insert`. -/
def BundleManager.deploy (m : BundleManager) (td : Except Err Nat) (id : Ulid) :
    Except Err Statistics × BundleManager :=
  match BundleStorage.metadata m.storage id with
  | .error e => (.error e, m)
  | .ok config =>
    match td with
    | .error e => (.error e, m)
    | .ok root =>
      match m.verify_bundle id config with
      | .error e => (.error e, m)
      | .ok _ =>
        match BundleStorage.unpack m.storage id with
        | .error e => (.error e, m)
        | .ok _ =>
          match m.compressor.compress (m.storage.walkOf id) config.compress with
          | .error e => (.error e, m)
          | .ok stats =>
            (.ok stats,
              { m with
                bundles := m.bundles.insert id
                  (.Active { root := root, config := config, stats := stats }) })

/-- `BundleManager::remove` (manager.rs, lines 97-99). -/
def BundleManager.remove (m : BundleManager) (id : Ulid) : BundleManager :=
  { m with bundles := m.bundles.erase id }

/-- The body of the `for id in self.storage.enumerate()?` loop of
`BundleManager::load_all`: a deploy failure is converted into a Failed entry
carrying `e.to_string()`. -/
def loadAllStep (td : Except Err Nat) (m : BundleManager) (id : Ulid) : BundleManager :=
  match m.deploy td id with
  | (.error e, m) => { m with bundles := m.bundles.insert id (.Failed e.description) }
  | (.ok _, m) => m

def loadAllGo (td : Except Err Nat) : List Ulid → BundleManager → BundleManager
  | [], m => m
  | id :: rest, m => loadAllGo td rest (loadAllStep td m id)

/-- `BundleManager::load_all` (manager.rs, lines 43-51): deploys every
enumerated identifier, capturing failures, and returns `Ok(())`. -/
def BundleManager.load_all (m : BundleManager) (td : Except Err Nat) :
    Except Err Unit × BundleManager :=
  (.ok (), loadAllGo td (BundleStorage.enumerate m.storage) m)

/-! ## Control server (`src/server/http.rs`) -/

/-- `tiny_http::Method` (the standard verbs the router can receive). -/
inductive Method
  | Get
  | Head
  | Post
  | Put
  | Delete
  | Connect
  | Options
  | Trace
  | Patch
deriving DecidableEq, Repr

/-- Modelled from the ulid crate's `Ulid::from_string` (the crate is an
external dependency): 26 characters of Crockford base32, case-insensitive,
rejecting I, L, O, U; the value must fit in 128 bits. -/
def crockfordValue (c : Char) : Option Nat :=
  "0123456789ABCDEFGHJKMNPQRSTVWXYZ".toList.findIdx? (fun a => a == c.toUpper)

def ulidFromString (s : String) : Option Ulid :=
  if s.length == 26 then
    (s.toList.foldlM (fun acc c => (crockfordValue c).map (fun v => acc * 32 + v)) 0).bind
      (fun v => if v < 2 ^ 128 then some v else none)
  else
    none

/-- `request.url().strip_prefix("/bundle/")`. -/
def stripBundle (url : String) : Option String :=
  if url.startsWith "/bundle/" then some (url.drop 8) else none

structure HttpResponse where
  status : Nat
  body : String
deriving DecidableEq, Repr

/-- The `match result` at the end of the `/bundle/{id}` branch of
`Server::listen`: a handler error becomes a 500 with its description. -/
def responseOf (r : Except Err String) : HttpResponse :=
  { status := match r with | .ok _ => 200 | .error _ => 500,
    body := match r with | .ok payload => payload | .error e => e.description }

/-- The per-request dispatch of `Server::listen` (http.rs, lines 124-153),
parametrised by the three handlers' outcomes.  Any GET is answered with the
registry listing; otherwise a URL of the form `/bundle/{valid ulid}` is
dispatched by method (non-POST/DELETE methods answer `Ok("OK")`); everything
else is 404. -/
def routeRequest (m : Method) (url : String)
    (postResult : Ulid → Except Err String) (deleteResult : Ulid → Except Err String)
    (getBody : String) : HttpResponse :=
  if m == .Get then
    { status := 200, body := getBody }
  else
    match (stripBundle url).map ulidFromString with
    | some (some id) =>
      let result : Except Err String :=
        match m with
        | .Post => postResult id
        | .Delete => deleteResult id
        | _ => .ok "OK"
      responseOf result
    | _ => { status := 404, body := "Not found" }

/-- The serde rendering of an `Algorithm` key. -/
def Algorithm.name : Algorithm → String
  | .Gzip => "Gzip"
  | .Brotli => "Brotli"

/-- `serde_json::to_string` on `Statistics` (derive-generated; never fails). -/
def serializeStats (s : Statistics) : String :=
  "\x7b\"size\":" ++ toString s.size ++ ",\"compressible\":" ++ toString s.compressible ++
    ",\"compressed\":\x7b" ++
    String.intercalate ","
      (s.compressed.map (fun p => "\"" ++ p.1.name ++ "\":" ++ toString p.2)) ++
    "\x7d\x7d"

/-- The environment of one request: outcomes of every effect the handlers
perform outside the registry and the store. -/
structure ServerEnv where
  /-- `TempDir::with_prefix("launch-")` inside `deploy`. -/
  tempdir : Except Err Nat
  /-- Outcome of `config.apply(&caddy_endpoint)` at attempt `i` of the retry
  loop in `Server::reload_config`. -/
  caddyAttempts : Nat → Except String Unit
  /-- `Options::kube_service`. -/
  kubeService : Option String
  /-- Combined outcome of `TempDir::new`, `fs::write` and `spawn`/`wait` in
  `Server::reload_ingress`. -/
  ingressSetup : Except Err Unit
  /-- `status.success()` of the ingress update script. -/
  scriptSuccess : Bool
  /-- The archive that `BundleStorage::add` persists from the request body. -/
  requestBody : Archive
  /-- An I/O failure of `BundleStorage::add`, if any. -/
  addResult : Option Err

/-- The `for _ in 0..10` retry loop of `Server::reload_config`: return on the
first success, else fall out of the loop with the last result. -/
def reloadConfigLoop (attempts : Nat → Except String Unit) :
    Nat → Nat → Except Err Unit → Except Err Unit
  | 0, _, result => result
  | n + 1, i, _ =>
    match attempts i with
    | .ok _ => .ok ()
    | .error e => reloadConfigLoop attempts n (i + 1) (.error (.other e))

/-- `Server::reload_config` (http.rs, lines 43-66). -/
def Server.reload_config (attempts : Nat → Except String Unit) : Except Err Unit :=
  reloadConfigLoop attempts 10 0 (.ok ())

/-- `Server::reload_ingress` (http.rs, lines 68-122): without a configured
service it does nothing; a failure writing or spawning propagates; a
non-zero script exit is only logged (`eprintln`) and the function still
returns `Ok(())`. -/
def Server.reload_ingress (kubeService : Option String) (setup : Except Err Unit)
    (scriptSuccess : Bool) : Except Err Unit :=
  match kubeService with
  | some _service =>
    match setup with
    | .error e => .error e
    | .ok _ =>
      if !scriptSuccess then
        .ok ()
      else
        .ok ()
  | none => .ok ()

/-- `Server::handle_post` (http.rs, lines 160-166): add, deploy, reload the
proxy, reload the ingress, answer with the serialized statistics. -/
def Server.handle_post (m : BundleManager) (env : ServerEnv) (id : Ulid) :
    Except Err String × BundleManager :=
  match env.addResult with
  | some e => (.error e, m)
  | none =>
    let m := { m with storage := m.storage.insert id env.requestBody }
    match m.deploy env.tempdir id with
    | (.error e, m) => (.error e, m)
    | (.ok stats, m) =>
      match Server.reload_config env.caddyAttempts with
      | .error e => (.error e, m)
      | .ok _ =>
        match Server.reload_ingress env.kubeService env.ingressSetup env.scriptSuccess with
        | .error e => (.error e, m)
        | .ok _ => (.ok (serializeStats stats), m)

/-- `Server::handle_delete` (http.rs, lines 168-174). -/
def Server.handle_delete (m : BundleManager) (env : ServerEnv) (id : Ulid) :
    Except Err String × BundleManager :=
  match BundleStorage.remove m.storage id with
  | .error e => (.error e, m)
  | .ok s =>
    let m := (BundleManager.remove { m with storage := s } id)
    match Server.reload_config env.caddyAttempts with
    | .error e => (.error e, m)
    | .ok _ =>
      match Server.reload_ingress env.kubeService env.ingressSetup env.scriptSuccess with
      | .error e => (.error e, m)
      | .ok _ => (.ok "Deleted", m)

/-! ## Domain-uniqueness invariant and reachable states -/

/-- The domain a status claims: Active entries claim their config's domain. -/
def statusDomain : BundleStatus → Option String
  | .Active bundle => some bundle.config.domain
  | .Failed _ => none

/-- Two registry entries never claim the same domain (vacuous unless both
are Active). -/
def domainsDisjoint (p q : Ulid × BundleStatus) : Bool :=
  statusDomain p.2 == none || !(statusDomain p.2 == statusDomain q.2)

/-- The registry's invariant: identifiers are unique keys, and no two
entries (in particular no two Active entries) claim the same domain. -/
def RegistryInv (reg : Registry) : Prop :=
  (reg.map Prod.fst).Nodup ∧ reg.Pairwise (fun p q => domainsDisjoint p q = true)

/-- Manager states reachable from `BundleManager::new` (empty registry) via
the registry-mutating operations; `setStore` stands for `BundleStorage::add`
and the store mutations of `handle_post`/`handle_delete`, which never touch
the registry. -/
inductive Reach : BundleManager → Prop
  | init (storage : Store) (c : Compressor) :
      Reach { bundles := [], storage := storage, compressor := c }
  | deploy {m : BundleManager} (td : Except Err Nat) (id : Ulid) :
      Reach m → Reach (m.deploy td id).2
  | remove {m : BundleManager} (id : Ulid) :
      Reach m → Reach (m.remove id)
  | load_all {m : BundleManager} (td : Except Err Nat) :
      Reach m → Reach (m.load_all td).2
  | setStore {m : BundleManager} (s : Store) :
      Reach m → Reach { m with storage := s }

/-! ## Concrete fixtures for counterexamples and witnesses -/

def stats0 : Statistics := { size := 0, compressible := 0, compressed := [] }

def cfgA : BundleConfig :=
  { name := "a", domain := "d.example", compress := [], fallback := none }

def cfgB : BundleConfig :=
  { name := "b", domain := "d.example", compress := [], fallback := none }

/-- A well-formed archive: one `launch.config` member, clean unpack, empty tree. -/
def goodArchive (cfg : BundleConfig) : Archive :=
  { entries := [{ path := ["launch.config"], config? := some cfg }],
    unpackResult := .ok (), walk := [] }

/-- A broken archive: no `launch.config` member at all. -/
def emptyArchive : Archive :=
  { entries := [], unpackResult := .ok (), walk := [] }

def mEmpty : BundleManager :=
  { bundles := [], storage := [], compressor := Compressor.defaultConfig }

/-- Registry holding `idA = 0` Active on `d.example`; store holding an
archive for `idB = 1` whose metadata declares the same domain. -/
def mConflict : BundleManager :=
  { bundles := [(0, .Active { root := 0, config := cfgA, stats := stats0 })],
    storage := [(1, goodArchive cfgB)],
    compressor := Compressor.defaultConfig }

/-- One Active entry that owns both its registry slot and its archive. -/
def mSelf : BundleManager :=
  { bundles := [(0, .Active { root := 0, config := cfgA, stats := stats0 })],
    storage := [(0, goodArchive cfgA)],
    compressor := Compressor.defaultConfig }

/-- One broken archive on disk, empty registry: the startup situation of
scenario C. -/
def mBroken : BundleManager :=
  { bundles := [], storage := [(4, emptyArchive)], compressor := Compressor.defaultConfig }

/-- A file entry of the walk with fixed per-algorithm compressed sizes. -/
def fsFile (ext : String) (size gz br : Nat) : FsEntry :=
  { walkError? := none, isFile := true, ext? := some ext, size := size,
    applyResult := fun a => match a with | .Gzip => .ok gz | .Brotli => .ok br }

/-- A directory entry of the walk (`metadata().len()` of a directory is not
zero on common filesystems). -/
def fsDir (size : Nat) : FsEntry :=
  { walkError? := none, isFile := false, ext? := none, size := size,
    applyResult := fun _ => .ok 0 }

/-- Two eligible `.js` files plus the directory that contains them. -/
def c2walk : List FsEntry := [fsDir 4096, fsFile "js" 2000 500 450, fsFile "js" 2000 300 280]

/-- One eligible file whose compressed forms are larger than the original
(gzip and brotli both expand incompressible input slightly). -/
def c3walk : List FsEntry := [fsFile "js" 1400 1410 1410]

def c3stats : Statistics :=
  { size := 1400, compressible := 1400, compressed := [(.Gzip, 1410), (.Brotli, 1410)] }

/-- A walk on which compression shrinks the file, for witnesses. -/
def wWalk : List FsEntry := [fsFile "js" 1400 700 650]

def wStats : Statistics :=
  { size := 1400, compressible := 1400, compressed := [(.Gzip, 700), (.Brotli, 650)] }

/-- A request environment in which every external effect succeeds (the
ingress script's exit status is left to each theorem). -/
def envOk : ServerEnv :=
  { tempdir := .ok 0, caddyAttempts := fun _ => .ok (), kubeService := some "svc",
    ingressSetup := .ok (), scriptSuccess := true,
    requestBody := goodArchive cfgA, addResult := none }

/-- Like `envOk` but the uploaded archive has no `launch.config` member. -/
def envBadBody : ServerEnv :=
  { envOk with requestBody := emptyArchive }

/-- Like `envOk` but every Caddy admin API attempt is refused. -/
def envCaddyFail : ServerEnv :=
  { envOk with caddyAttempts := fun _ => .error "connection refused" }

/-! ## General lemmas about the pipeline -/

theorem responseOf_status_ne_404 (r : Except Err String) : (responseOf r).status ≠ 404 := by
  cases r <;> simp [responseOf]

/-- `deploy` either fails and leaves the manager untouched, or passes the
domain check and installs the Active status. -/
theorem deploy_cases (m : BundleManager) (td : Except Err Nat) (id : Ulid) :
    (m.deploy td id).2 = m ∨
      ∃ root config stats,
        m.verify_bundle id config = .ok () ∧
        (m.deploy td id).1 = .ok stats ∧
        (m.deploy td id).2
          = { m with bundles := (m.bundles.insert id
                (.Active { root := root, config := config, stats := stats })) } := by
  unfold BundleManager.deploy
  split
  · exact Or.inl rfl
  next x config hm =>
    split
    · exact Or.inl rfl
    next y root =>
      split
      · exact Or.inl rfl
      next z u hv =>
        split
        · exact Or.inl rfl
        next w u2 hu =>
          split
          · exact Or.inl rfl
          next v stats hc =>
            refine Or.inr ⟨root, config, stats, ?_, rfl, rfl⟩
            cases u
            exact hv

/-- Any failing `deploy` leaves the manager exactly as it was. -/
theorem deploy_snd_of_error {m : BundleManager} {td : Except Err Nat} {id : Ulid} {e : Err}
    (h : (m.deploy td id).1 = .error e) : (m.deploy td id).2 = m := by
  rcases deploy_cases m td id with h2 | ⟨root, config, stats, _, h1, _⟩
  · exact h2
  · rw [h1] at h
    exact absurd h (by simp)

/-- `Registry.insert` makes its entry visible to `lookup`. -/
theorem lookup_insert (reg : Registry) (id : Ulid) (st : BundleStatus) :
    (reg.insert id st).lookup id = some st := by
  simp [Registry.insert, Registry.lookup, List.find?]

/-- If the candidate's domain is held by some other Active entry, then
`verify_bundle` reports the conflict. -/
theorem verify_bundle_conflict {m : BundleManager} {idA idB : Ulid} {b : ActiveBundle}
    {cfg : BundleConfig}
    (hA : m.bundles.lookup idA = some (.Active b))
    (hne : idA ≠ idB)
    (hdom : cfg.domain = b.config.domain) :
    m.verify_bundle idB cfg = .error (.other "domain already in use by another bundle") := by
  have hmem : b.config.domain ∈ activeDomainsExcept m.bundles idB := by
    rw [Registry.lookup] at hA
    obtain ⟨p, hfind⟩ : ∃ p, List.find? (fun p => p.1 == idA) m.bundles = some p := by
      cases hf : List.find? (fun p => p.1 == idA) m.bundles with
      | none => rw [hf] at hA; simp at hA
      | some p => exact ⟨p, rfl⟩
    have hp2 : p.2 = .Active b := by rw [hfind] at hA; simpa using hA
    have hp1 : p.1 = idA := by simpa using List.find?_some hfind
    have hpm : p ∈ m.bundles := List.mem_of_find?_eq_some hfind
    rw [activeDomainsExcept, List.mem_filterMap]
    refine ⟨p, ?_, ?_⟩
    · rw [List.mem_filter]
      exact ⟨hpm, by simp [hp1, hne]⟩
    · rw [hp2]
  have hmem' : cfg.domain ∈ activeDomainsExcept m.bundles idB := hdom ▸ hmem
  have hcontains : (activeDomainsExcept m.bundles idB).contains cfg.domain = true := by
    rw [List.contains_iff_exists_mem_beq]
    exact ⟨cfg.domain, hmem', by simp⟩
  unfold BundleManager.verify_bundle
  rw [hcontains]
  rfl

/-! ## C1 — domain conflict on deploy -/

/-- C1 counterexample: with `idA = 0` Active on `d.example` and an archive
for `idB = 1` declaring the same domain, `deploy 1` returns the
domain-conflict error and leaves the whole manager unchanged — but it does
NOT record a Failed status for `idB`: the registry still has no entry for 1.
(`deploy` never inserts a Failed status; only `load_all` does.) -/
theorem deploy_conflict_records_no_failed_entry :
    (mConflict.deploy (.ok 1) 1).1
        = .error (.other "domain already in use by another bundle") ∧
      (mConflict.deploy (.ok 1) 1).2.bundles.lookup 1 = none ∧
      (mConflict.deploy (.ok 1) 1).2 = mConflict :=
  ⟨rfl, rfl, rfl⟩

/-- C1 (amended): deploying an identifier whose archive declares a domain
already held by a different Active entry returns the domain-conflict error
and leaves the manager (hence the Active entry for `idA`) completely
unchanged; in particular no Failed status is recorded for `idB` by this
path (a Failed status appears only when the deploy was invoked via
`load_all`). -/
theorem deploy_conflict_leaves_registry_unchanged (m : BundleManager) (td : Except Err Nat)
    (root : Nat) (idA idB : Ulid) (b : ActiveBundle) (cfg : BundleConfig)
    (hA : m.bundles.lookup idA = some (.Active b))
    (hmeta : BundleStorage.metadata m.storage idB = .ok cfg)
    (hdom : cfg.domain = b.config.domain)
    (hne : idA ≠ idB)
    (htd : td = .ok root) :
    m.deploy td idB = (.error (.other "domain already in use by another bundle"), m) := by
  subst htd
  have hv := verify_bundle_conflict hA hne hdom
  simp only [BundleManager.deploy, hmeta, hv]

theorem deploy_conflict_leaves_registry_unchanged_witness :
    mConflict.deploy (.ok 1) 1
      = (.error (.other "domain already in use by another bundle"), mConflict) :=
  deploy_conflict_leaves_registry_unchanged mConflict (.ok 1) 1 0 1
    { root := 0, config := cfgA, stats := stats0 } cfgB rfl rfl rfl (by decide) rfl

/-! ## C5 — routing and 404 -/

/-- C5 counterexample: `GET /no-such-route` is not one of the three specified
routes, yet the server answers it with 200 and the registry listing, not
404 — `Server::listen` answers ANY GET with the listing. -/
theorem get_unknown_path_not_404 :
    routeRequest .Get "/no-such-route" (fun _ => .ok "") (fun _ => .ok "") "listing"
        = { status := 200, body := "listing" } ∧
      (routeRequest .Get "/no-such-route" (fun _ => .ok "") (fun _ => .ok "") "listing").status
        ≠ 404 :=
  ⟨rfl, by decide⟩

/-- C5 (amended): the Control Server responds 404 exactly when the method is
not GET AND the URL is not of the form `/bundle/{valid ULID}`.  A GET on any
path returns the registry listing, and a non-POST/DELETE method on
`/bundle/{valid id}` returns 200 "OK". -/
theorem route_404_iff (m : Method) (url : String)
    (postResult deleteResult : Ulid → Except Err String) (getBody : String) :
    (routeRequest m url postResult deleteResult getBody).status = 404 ↔
      m ≠ .Get ∧ (stripBundle url).bind ulidFromString = none := by
  by_cases hm : m = .Get
  · subst hm
    have h200 : (routeRequest .Get url postResult deleteResult getBody).status = 200 := rfl
    rw [h200]
    constructor
    · intro h
      exact absurd h (by decide)
    · rintro ⟨hne, _⟩
      exact absurd rfl hne
  · unfold routeRequest
    rw [if_neg (by simp [hm] : ¬ ((m == Method.Get) = true))]
    cases hs : stripBundle url with
    | none => simp [hm]
    | some r =>
      cases hu : ulidFromString r with
      | none => simp [hm, hu]
      | some id => simp [hm, hu, responseOf_status_ne_404]

/-! ## C6 — deploy errors surface and never half-update the registry -/

/-- C6: when the deploy pipeline of a live `POST /bundle/{id}` fails, the
error is returned by the handler (the listener turns it into a 500 carrying
the description), and the registry is either untouched or holds exactly a
new Failed entry for the identifier — here in fact always untouched, which
realizes the claim's first disjunct. -/
theorem deploy_error_surfaced (m : BundleManager) (env : ServerEnv) (id : Ulid) (e : Err)
    (ha : env.addResult = none)
    (hd : (({ m with storage := m.storage.insert id env.requestBody }).deploy env.tempdir id).1
        = .error e) :
    (Server.handle_post m env id).1 = .error e ∧
    ((Server.handle_post m env id).2.bundles = m.bundles ∨
      (Server.handle_post m env id).2.bundles = m.bundles.insert id (.Failed e.description)) ∧
    responseOf (Server.handle_post m env id).1 = { status := 500, body := e.description } := by
  have hp : ({ m with storage := m.storage.insert id env.requestBody }).deploy env.tempdir id
      = (.error e, { m with storage := m.storage.insert id env.requestBody }) :=
    Prod.ext_iff.mpr ⟨hd, deploy_snd_of_error hd⟩
  simp [Server.handle_post, ha, hp]
  rfl

theorem deploy_error_surfaced_witness :
    (Server.handle_post mEmpty envBadBody 3).1 = .error (.notFound "no launch config found") ∧
    ((Server.handle_post mEmpty envBadBody 3).2.bundles = mEmpty.bundles ∨
      (Server.handle_post mEmpty envBadBody 3).2.bundles
        = mEmpty.bundles.insert 3 (.Failed "no launch config found")) ∧
    responseOf (Server.handle_post mEmpty envBadBody 3).1
      = { status := 500, body := "no launch config found" } :=
  deploy_error_surfaced mEmpty envBadBody 3 (.notFound "no launch config found") rfl rfl

/-! ## C7 — load_all converts per-bundle failures to Failed entries -/

/-- C7: `load_all` deploys every enumerated identifier and never propagates a
per-identifier deploy failure — it returns `Ok(())` unconditionally, and a
failing deploy leaves a Failed entry carrying the error's description. -/
theorem load_all_captures_failures :
    (∀ (m : BundleManager) (td : Except Err Nat), (m.load_all td).1 = .ok ()) ∧
    (∀ (m : BundleManager) (td : Except Err Nat) (id : Ulid) (e : Err),
      (m.deploy td id).1 = .error e →
      (loadAllStep td m id).bundles.lookup id = some (.Failed e.description)) := by
  constructor
  · intro m td
    rfl
  · intro m td id e h
    have hp : m.deploy td id = (.error e, m) :=
      Prod.ext_iff.mpr ⟨h, deploy_snd_of_error h⟩
    simp only [loadAllStep, hp]
    exact lookup_insert m.bundles id (.Failed e.description)

theorem load_all_captures_failures_witness :
    (mBroken.load_all (.ok 0)).1 = .ok () ∧
    (loadAllStep (.ok 0) mBroken 4).bundles.lookup 4
      = some (.Failed "no launch config found") :=
  ⟨load_all_captures_failures.1 mBroken (.ok 0),
   load_all_captures_failures.2 mBroken (.ok 0) 4 (.notFound "no launch config found") rfl⟩

/-! ## C8 — archive-store remove is idempotent; deploy after remove is NotFound -/

/-- C8: removing a missing archive succeeds (NotFound is converted to
success); after any successful remove the identifier is no longer
enumerated; deploying an identifier with no stored archive fails with the
NotFound-class error of opening the missing file. -/
theorem storage_remove_idempotent_enumerate_deploy :
    (∀ (s : Store) (id : Ulid), s.find id = none → BundleStorage.remove s id = .ok s) ∧
    (∀ (s s' : Store) (id : Ulid), BundleStorage.remove s id = .ok s' →
      id ∉ BundleStorage.enumerate s') ∧
    (∀ (m : BundleManager) (td : Except Err Nat) (id : Ulid), m.storage.find id = none →
      (m.deploy td id).1 = .error (.notFound enoentMsg)) := by
  refine ⟨?_, ?_, ?_⟩
  · intro s id h
    simp [BundleStorage.remove, remove_file, h]
  · intro s s' id h
    rcases hf : s.find id with _ | a
    · simp only [BundleStorage.remove, remove_file, hf] at h
      cases h
      have hn : List.find? (fun p => p.1 == id) s = none := by
        rw [Store.find] at hf
        cases hq : List.find? (fun p => p.1 == id) s with
        | none => rfl
        | some p => rw [hq] at hf; simp at hf
      rw [List.find?_eq_none] at hn
      simp only [BundleStorage.enumerate, List.mem_map, not_exists]
      intro p hpair
      rcases hpair with ⟨hp, hpe⟩
      exact absurd (by simp [hpe]) (hn p hp)
    · simp only [BundleStorage.remove, remove_file, hf] at h
      cases h
      simp only [BundleStorage.enumerate, Store.erase, List.mem_map, not_exists]
      intro p hpair
      rcases hpair with ⟨hp, hpe⟩
      rw [List.mem_filter] at hp
      have := hp.2
      simp [hpe] at this
  · intro m td id h
    have hmeta : BundleStorage.metadata m.storage id = .error (.notFound enoentMsg) := by
      simp [BundleStorage.metadata, h]
    simp only [BundleManager.deploy, hmeta]

theorem storage_remove_idempotent_witness :
    BundleStorage.remove ([] : Store) 7 = .ok [] ∧
    5 ∉ BundleStorage.enumerate ([] : Store) ∧
    (mEmpty.deploy (.ok 0) 7).1 = .error (.notFound enoentMsg) :=
  ⟨storage_remove_idempotent_enumerate_deploy.1 [] 7 rfl,
   storage_remove_idempotent_enumerate_deploy.2.1 [(5, emptyArchive)] [] 5 rfl,
   storage_remove_idempotent_enumerate_deploy.2.2 mEmpty (.ok 0) 7 rfl⟩

/-! ## C9 — ingress script failure is non-fatal, proxy failure is fatal -/

/-- C9: on a `POST /bundle/{id}` whose add, deploy and proxy reload succeed
and whose ingress manifest was written and the script spawned, the handler
returns the successful bundle response WHATEVER the script's exit status is
(a non-zero exit is only logged); whereas if the proxy reload exhausts its
retries with an error, that error is returned to the uploader. -/
theorem ingress_nonfatal_proxy_fatal :
    (∀ (m : BundleManager) (env : ServerEnv) (id : Ulid) (stats : Statistics) (b : Bool),
      env.addResult = none →
      (({ m with storage := m.storage.insert id env.requestBody }).deploy env.tempdir id).1
        = .ok stats →
      Server.reload_config env.caddyAttempts = .ok () →
      env.ingressSetup = .ok () →
      (Server.handle_post m { env with scriptSuccess := b } id).1
        = .ok (serializeStats stats)) ∧
    (∀ (m : BundleManager) (env : ServerEnv) (id : Ulid) (stats : Statistics) (e : Err),
      env.addResult = none →
      (({ m with storage := m.storage.insert id env.requestBody }).deploy env.tempdir id).1
        = .ok stats →
      Server.reload_config env.caddyAttempts = .error e →
      (Server.handle_post m env id).1 = .error e) := by
  constructor
  · intro m env id stats b ha hd hc hi
    rcases hp : ({ m with storage := m.storage.insert id env.requestBody }).deploy
        env.tempdir id with ⟨r, m2⟩
    rw [hp] at hd
    subst hd
    have hri : ∀ sb : Bool,
        Server.reload_ingress env.kubeService env.ingressSetup sb = .ok () := by
      intro sb
      rw [hi]
      cases hk : env.kubeService with
      | none => rfl
      | some service => cases sb <;> rfl
    simp only [Server.handle_post, ha, hp, hc, hri]
  · intro m env id stats e ha hd hc
    rcases hp : ({ m with storage := m.storage.insert id env.requestBody }).deploy
        env.tempdir id with ⟨r, m2⟩
    rw [hp] at hd
    subst hd
    simp only [Server.handle_post, ha, hp, hc]

theorem ingress_nonfatal_proxy_fatal_witness :
    (Server.handle_post mEmpty { envOk with scriptSuccess := false } 3).1
        = .ok (serializeStats stats0) ∧
      (Server.handle_post mEmpty envCaddyFail 3).1 = .error (.other "connection refused") :=
  ⟨ingress_nonfatal_proxy_fatal.1 mEmpty envOk 3 stats0 false rfl rfl rfl rfl,
   ingress_nonfatal_proxy_fatal.2 mEmpty envCaddyFail 3 stats0 (.other "connection refused")
     rfl rfl rfl⟩

/-! ## C10 — DELETE of an unknown identifier succeeds and changes nothing -/

/-- C10: a `DELETE /bundle/{id}` for an identifier with no stored archive and
no registry entry still succeeds with the confirmation payload, leaving the
store and the registry exactly as they were (given the two reconciliation
steps succeed, which do not depend on the identifier). -/
theorem delete_unknown_id_succeeds (m : BundleManager) (env : ServerEnv) (id : Ulid)
    (hs : m.storage.find id = none)
    (hr : m.bundles.lookup id = none)
    (hc : Server.reload_config env.caddyAttempts = .ok ())
    (hi : Server.reload_ingress env.kubeService env.ingressSetup env.scriptSuccess = .ok ()) :
    Server.handle_delete m env id = (.ok "Deleted", m) := by
  have hrem : BundleStorage.remove m.storage id = .ok m.storage := by
    simp [BundleStorage.remove, remove_file, hs]
  have herase : m.bundles.erase id = m.bundles := by
    rw [Registry.erase]
    apply List.filter_eq_self.mpr
    intro p hp
    have hn : List.find? (fun p => p.1 == id) m.bundles = none := by
      rw [Registry.lookup] at hr
      cases hq : List.find? (fun p => p.1 == id) m.bundles with
      | none => rfl
      | some q => rw [hq] at hr; simp at hr
    rw [List.find?_eq_none] at hn
    simpa using hn p hp
  have hmrm : BundleManager.remove { m with storage := m.storage } id = m := by
    show BundleManager.mk (m.bundles.erase id) m.storage m.compressor = m
    rw [herase]
  simp only [Server.handle_delete, hrem, hmrm, hc, hi]

theorem delete_unknown_id_succeeds_witness :
    Server.handle_delete mEmpty envOk 7 = (.ok "Deleted", mEmpty) :=
  delete_unknown_id_succeeds mEmpty envOk 7 rfl rfl rfl rfl

/-! ## C2 — the per-algorithm statistic is overwritten, not summed -/

/-- C2: the code contradicts the spec's "running total".  On a tree with two
eligible `.js` files (gzip outputs 500 and 300 bytes), the returned
statistics carry 300 — the LAST file's compressed size, because the loop
uses `HashMap::insert` instead of adding — while the spec-side running
total is 800.  The `size` field moreover sums every walk entry including
the directory (4096), whereas the files alone sum to 4000. -/
theorem compress_overwrites_running_total :
    Compressor.defaultConfig.compress c2walk ["js"]
        = .ok { size := 8096, compressible := 4000,
                compressed := [(.Gzip, 300), (.Brotli, 280)] } ∧
      specCompressedTotal Compressor.defaultConfig c2walk ["js"] .Gzip = 800 ∧
      specFileSizeTotal c2walk = 4000 :=
  ⟨rfl, rfl, rfl⟩

/-! ## C3 — statistics invariant -/

/-- C3 counterexample: one eligible 1400-byte file whose compressed outputs
are 1410 bytes (compressors expand incompressible input).  The run succeeds
and records `compressed[Gzip] = 1410 > 1400 = compressible`, refuting
`compressed[algorithm] ≤ compressible` as an unconditional invariant. -/
theorem stats_invariant_fails_on_expanding_file :
    Compressor.defaultConfig.compress c3walk ["js"] = .ok c3stats ∧
      c3stats.compressed.lookup .Gzip = some 1410 ∧
      c3stats.compressible = 1400 ∧
      ¬ (1410 ≤ (1400 : Nat)) :=
  ⟨rfl, rfl, rfl, by decide⟩

/-- The `compressible` accumulator never decreases along the walk. -/
theorem compressGo_compressible_mono (c : Compressor) (f : List String) :
    ∀ (walk : List FsEntry) (s k : Nat) (cm : AlgMap) (st : Statistics),
      compressGo c f walk s k cm = .ok st → k ≤ st.compressible := by
  intro walk
  induction walk with
  | nil =>
    intro s k cm st h
    simp only [compressGo] at h
    cases h
    exact le_refl _
  | cons e rest ih =>
    intro s k cm st h
    simp only [compressGo] at h
    cases he : e.walkError? with
    | some err => rw [he] at h; cases h
    | none =>
      rw [he] at h
      by_cases hel : (e.size < c.min_size || !e.isFile || !match_extension e.ext? f) = true
      · rw [if_pos hel] at h
        exact ih _ _ _ _ h
      · rw [if_neg hel] at h
        cases ha : applyAll e c.algorithms cm with
        | error err => rw [ha] at h; cases h
        | ok cm2 =>
          rw [ha] at h
          exact le_trans (Nat.le_add_right k e.size) (ih _ _ _ _ h)

/-- `compressible` counts a subset of the walk entries that `size` counts. -/
theorem compressGo_compressible_le_size (c : Compressor) (f : List String) :
    ∀ (walk : List FsEntry) (s k : Nat) (cm : AlgMap) (st : Statistics),
      compressGo c f walk s k cm = .ok st → k ≤ s → st.compressible ≤ st.size := by
  intro walk
  induction walk with
  | nil =>
    intro s k cm st h hks
    simp only [compressGo] at h
    cases h
    exact hks
  | cons e rest ih =>
    intro s k cm st h hks
    simp only [compressGo] at h
    cases he : e.walkError? with
    | some err => rw [he] at h; cases h
    | none =>
      rw [he] at h
      by_cases hel : (e.size < c.min_size || !e.isFile || !match_extension e.ext? f) = true
      · rw [if_pos hel] at h
        exact ih _ _ _ _ h (le_trans hks (Nat.le_add_right s e.size))
      · rw [if_neg hel] at h
        cases ha : applyAll e c.algorithms cm with
        | error err => rw [ha] at h; cases h
        | ok cm2 =>
          rw [ha] at h
          exact ih _ _ _ _ h (Nat.add_le_add_right hks e.size)

/-- Entries written by the inner algorithm loop stay below the bound when
every apply result of the entry does. -/
theorem applyAll_entries_le (e : FsEntry) (bound : Nat)
    (hb : ∀ (a : Algorithm) (v : Nat), e.applyResult a = .ok v → v ≤ bound) :
    ∀ (algs : List Algorithm) (cm cm2 : AlgMap),
      applyAll e algs cm = .ok cm2 → (∀ p ∈ cm, p.2 ≤ bound) →
      ∀ p ∈ cm2, p.2 ≤ bound := by
  intro algs
  induction algs with
  | nil =>
    intro cm cm2 h hcm
    simp only [applyAll] at h
    cases h
    exact hcm
  | cons a rest ih =>
    intro cm cm2 h hcm
    simp only [applyAll] at h
    cases hr : e.applyResult a with
    | error err => rw [hr] at h; cases h
    | ok v =>
      rw [hr] at h
      apply ih _ _ h
      intro p hp
      rw [AlgMap.insert] at hp
      rcases List.mem_cons.mp hp with hpe | hpf
      · rw [hpe]
        exact hb a v hr
      · exact hcm p (List.mem_of_mem_filter hpf)

/-- Every recorded compressed entry is bounded by the final `compressible`,
provided no apply result exceeds its file's size. -/
theorem compressGo_compressed_le (c : Compressor) (f : List String) :
    ∀ (walk : List FsEntry) (s k : Nat) (cm : AlgMap) (st : Statistics),
      compressGo c f walk s k cm = .ok st →
      (∀ e ∈ walk, ∀ (a : Algorithm) (v : Nat), e.applyResult a = .ok v → v ≤ e.size) →
      (∀ p ∈ cm, p.2 ≤ k) →
      ∀ p ∈ st.compressed, p.2 ≤ st.compressible := by
  intro walk
  induction walk with
  | nil =>
    intro s k cm st h hw hcm
    simp only [compressGo] at h
    cases h
    exact hcm
  | cons e rest ih =>
    intro s k cm st h hw hcm
    simp only [compressGo] at h
    cases he : e.walkError? with
    | some err => rw [he] at h; cases h
    | none =>
      rw [he] at h
      by_cases hel : (e.size < c.min_size || !e.isFile || !match_extension e.ext? f) = true
      · rw [if_pos hel] at h
        exact ih _ _ _ _ h (fun e2 he2 => hw e2 (List.mem_cons_of_mem e he2)) hcm
      · rw [if_neg hel] at h
        cases ha : applyAll e c.algorithms cm with
        | error err => rw [ha] at h; cases h
        | ok cm2 =>
          rw [ha] at h
          refine ih _ _ _ _ h (fun e2 he2 => hw e2 (List.mem_cons_of_mem e he2)) ?_
          refine applyAll_entries_le e (k + e.size) ?_ c.algorithms cm cm2 ha ?_
          · intro a v hv
            exact le_trans (hw e (List.mem_cons_self e rest) a v hv) (Nat.le_add_left e.size k)
          · intro p hp
            exact le_trans (hcm p hp) (Nat.le_add_right k e.size)

/-- With a positive minimum size, a run whose `compressible` never grew
cannot have written any compressed entry. -/
theorem compressGo_zero (c : Compressor) (f : List String) (hmin : 0 < c.min_size) :
    ∀ (walk : List FsEntry) (s k : Nat) (cm : AlgMap) (st : Statistics),
      compressGo c f walk s k cm = .ok st → st.compressible = k → st.compressed = cm := by
  intro walk
  induction walk with
  | nil =>
    intro s k cm st h h0
    simp only [compressGo] at h
    cases h
    rfl
  | cons e rest ih =>
    intro s k cm st h h0
    simp only [compressGo] at h
    cases he : e.walkError? with
    | some err => rw [he] at h; cases h
    | none =>
      rw [he] at h
      by_cases hel : (e.size < c.min_size || !e.isFile || !match_extension e.ext? f) = true
      · rw [if_pos hel] at h
        exact ih _ _ _ _ h h0
      · rw [if_neg hel] at h
        cases ha : applyAll e c.algorithms cm with
        | error err => rw [ha] at h; cases h
        | ok cm2 =>
          rw [ha] at h
          exfalso
          have hmono := compressGo_compressible_mono c f rest _ _ _ _ h
          have hsz : c.min_size ≤ e.size := by
            have hel' : (e.size < c.min_size || !e.isFile || !match_extension e.ext? f) = false :=
              eq_false_of_ne_true hel
            simp only [Bool.or_eq_false_iff] at hel'
            have h2 := hel'.1.1
            simp only [decide_eq_false_iff_not] at h2
            omega
          omega

/-- C3 (amended): for EVERY successful run (expanding files included),
`compressible ≤ size` holds, and `compressible = 0` forces the compressed
mapping to be empty — so every algorithm's entry is absent (defaulting to 0)
rather than present.  Each recorded `compressed` entry is bounded by
`compressible` only PROVIDED every per-file compressed output is no larger
than the file itself: real compressors may expand a file, in which case
that bound fails (see the counterexample). -/
theorem stats_invariant_amended (c : Compressor) (walk : List FsEntry)
    (filter : List String) (st : Statistics)
    (hrun : c.compress walk filter = .ok st)
    (hmin : 0 < c.min_size) :
    st.compressible ≤ st.size ∧
    ((∀ e ∈ walk, ∀ (a : Algorithm) (v : Nat), e.applyResult a = .ok v → v ≤ e.size) →
      ∀ (a : Algorithm) (v : Nat), st.compressed.lookup a = some v → v ≤ st.compressible) ∧
    (st.compressible = 0 → st.compressed = []) := by
  unfold Compressor.compress at hrun
  refine ⟨compressGo_compressible_le_size c filter walk 0 0 [] st hrun (le_refl 0), ?_, ?_⟩
  · intro hbound a v hl
    rw [AlgMap.lookup] at hl
    cases hq : List.find? (fun p => p.1 == a) st.compressed with
    | none => rw [hq] at hl; cases hl
    | some p =>
      rw [hq] at hl
      have hpv : p.2 = v := by simpa using hl
      rw [← hpv]
      exact compressGo_compressed_le c filter walk 0 0 [] st hrun hbound
        (fun p hp => absurd hp (List.not_mem_nil p)) p (List.mem_of_find?_eq_some hq)
  · intro h0
    exact compressGo_zero c filter hmin walk 0 0 [] st hrun h0

/-- The unconditional clauses are exercised on the EXPANDING run `c3walk`
(the counterexample's own input, where the non-expansion proviso fails),
and the conditional bound on the shrinking run `wWalk`. -/
theorem stats_invariant_amended_witness :
    c3stats.compressible ≤ c3stats.size ∧
    (c3stats.compressible = 0 → c3stats.compressed = []) ∧
    (∀ (a : Algorithm) (v : Nat), wStats.compressed.lookup a = some v →
      v ≤ wStats.compressible) :=
  ⟨(stats_invariant_amended Compressor.defaultConfig c3walk ["js"] c3stats rfl (by decide)).1,
   (stats_invariant_amended Compressor.defaultConfig c3walk ["js"] c3stats rfl (by decide)).2.2,
   (stats_invariant_amended Compressor.defaultConfig wWalk ["js"] wStats rfl (by decide)).2.1
     (by
       intro e he a v hv
       simp only [wWalk, List.mem_singleton] at he
       subst he
       cases a <;> (simp [fsFile] at hv ⊢; omega))⟩

/-! ## C4 — domain uniqueness is an invariant of all reachable states -/

theorem domainsDisjoint_symm :
    Symmetric (fun p q : Ulid × BundleStatus => domainsDisjoint p q = true) := by
  intro p q h
  unfold domainsDisjoint at *
  cases hp : statusDomain p.2 <;> cases hq : statusDomain q.2 <;> simp_all
  exact fun hh => h hh.symm

theorem notMem_keys_filter (reg : Registry) (id : Ulid) :
    id ∉ (reg.filter (fun p => !(p.1 == id))).map Prod.fst := by
  intro hmem
  rw [List.mem_map] at hmem
  rcases hmem with ⟨p, hp, hpe⟩
  rw [List.mem_filter] at hp
  have h2 := hp.2
  simp [hpe] at h2

theorem registryInv_filter (reg : Registry) (p : Ulid × BundleStatus → Bool)
    (h : RegistryInv reg) : RegistryInv (reg.filter p) :=
  ⟨List.Nodup.sublist ((List.filter_sublist reg).map Prod.fst) h.1,
   List.Pairwise.sublist (List.filter_sublist reg) h.2⟩

theorem registryInv_insert_failed (reg : Registry) (id : Ulid) (err : String)
    (h : RegistryInv reg) : RegistryInv (reg.insert id (.Failed err)) := by
  constructor
  · rw [Registry.insert, List.map_cons, List.nodup_cons]
    exact ⟨notMem_keys_filter reg id,
      List.Nodup.sublist ((List.filter_sublist reg).map Prod.fst) h.1⟩
  · rw [Registry.insert]
    refine List.Pairwise.cons ?_ (List.Pairwise.sublist (List.filter_sublist reg) h.2)
    intro q hq
    rfl

theorem registryInv_insert_active (m : BundleManager) (id : Ulid) (root : Nat)
    (cfg : BundleConfig) (stats : Statistics)
    (h : RegistryInv m.bundles)
    (hv : m.verify_bundle id cfg = .ok ()) :
    RegistryInv
      (m.bundles.insert id (.Active { root := root, config := cfg, stats := stats })) := by
  have hnc : (activeDomainsExcept m.bundles id).contains cfg.domain = false := by
    cases hb : (activeDomainsExcept m.bundles id).contains cfg.domain with
    | false => rfl
    | true =>
      rw [BundleManager.verify_bundle, hb] at hv
      cases hv
  constructor
  · rw [Registry.insert, List.map_cons, List.nodup_cons]
    exact ⟨notMem_keys_filter m.bundles id,
      List.Nodup.sublist ((List.filter_sublist m.bundles).map Prod.fst) h.1⟩
  · rw [Registry.insert]
    refine List.Pairwise.cons ?_ (List.Pairwise.sublist (List.filter_sublist m.bundles) h.2)
    intro q hq
    cases hq2 : q.2 with
    | Failed e => simp [domainsDisjoint, statusDomain, hq2]
    | Active b =>
      by_cases hde : b.config.domain = cfg.domain
      · exfalso
        have hmem : b.config.domain ∈ activeDomainsExcept m.bundles id := by
          rw [activeDomainsExcept, List.mem_filterMap]
          exact ⟨q, hq, by rw [hq2]⟩
        rw [hde] at hmem
        have hct : (activeDomainsExcept m.bundles id).contains cfg.domain = true := by
          rw [List.contains_iff_exists_mem_beq]
          exact ⟨cfg.domain, hmem, by simp⟩
        rw [hct] at hnc
        cases hnc
      · simp [domainsDisjoint, statusDomain, hq2, Ne.symm hde]

theorem registryInv_deploy (m : BundleManager) (td : Except Err Nat) (id : Ulid)
    (h : RegistryInv m.bundles) : RegistryInv ((m.deploy td id).2).bundles := by
  rcases deploy_cases m td id with h2 | ⟨root, config, stats, hv, h1, h2⟩
  · rw [h2]
    exact h
  · rw [h2]
    exact registryInv_insert_active m id root config stats h hv

theorem registryInv_loadAllStep (td : Except Err Nat) (m : BundleManager) (id : Ulid)
    (h : RegistryInv m.bundles) : RegistryInv (loadAllStep td m id).bundles := by
  have hd := registryInv_deploy m td id h
  unfold loadAllStep
  rcases hp : m.deploy td id with ⟨r, m2⟩
  rw [hp] at hd
  cases r with
  | error e => exact registryInv_insert_failed m2.bundles id e.description hd
  | ok stats => exact hd

theorem registryInv_loadAllGo (td : Except Err Nat) :
    ∀ (ids : List Ulid) (m : BundleManager),
      RegistryInv m.bundles → RegistryInv (loadAllGo td ids m).bundles := by
  intro ids
  induction ids with
  | nil => intro m h; exact h
  | cons id rest ih =>
    intro m h
    exact ih _ (registryInv_loadAllStep td m id h)

/-- With the invariant in force, an identifier whose own Active entry holds
`cfg.domain` passes the uniqueness check: only *other* entries are compared. -/
theorem verify_ok_of_inv (m : BundleManager) (id : Ulid) (b : ActiveBundle)
    (cfg : BundleConfig)
    (h : RegistryInv m.bundles)
    (hA : m.bundles.lookup id = some (.Active b))
    (hdom : cfg.domain = b.config.domain) :
    m.verify_bundle id cfg = .ok () := by
  obtain ⟨p, hfind⟩ : ∃ p, List.find? (fun p => p.1 == id) m.bundles = some p := by
    rw [Registry.lookup] at hA
    cases hf : List.find? (fun p => p.1 == id) m.bundles with
    | none => rw [hf] at hA; simp at hA
    | some p => exact ⟨p, rfl⟩
  have hp2 : p.2 = .Active b := by
    rw [Registry.lookup, hfind] at hA
    simpa using hA
  have hp1 : p.1 = id := by simpa using List.find?_some hfind
  have hpm : p ∈ m.bundles := List.mem_of_find?_eq_some hfind
  have hnc : (activeDomainsExcept m.bundles id).contains cfg.domain = false := by
    cases hb : (activeDomainsExcept m.bundles id).contains cfg.domain with
    | false => rfl
    | true =>
      exfalso
      rw [List.contains_iff_exists_mem_beq] at hb
      rcases hb with ⟨d, hd, hbeq⟩
      have hdd : cfg.domain = d := by simpa using hbeq
      rw [activeDomainsExcept, List.mem_filterMap] at hd
      rcases hd with ⟨q, hq, hqd⟩
      rw [List.mem_filter] at hq
      rcases hq with ⟨hqm, hqid⟩
      cases hq2 : q.2 with
      | Failed e => rw [hq2] at hqd; cases hqd
      | Active b2 =>
        rw [hq2] at hqd
        have hb2d : b2.config.domain = d := by simpa using hqd
        have hqp : q ≠ p := by
          intro hqp
          rw [hqp, hp1] at hqid
          simp at hqid
        have hr := (h.2).forall domainsDisjoint_symm hqm hpm hqp
        rw [domainsDisjoint, hq2, hp2] at hr
        simp only [statusDomain] at hr
        have heq : b2.config.domain = b.config.domain := by
          rw [hb2d, ← hdd, hdom]
        rw [heq] at hr
        simp at hr
  rw [BundleManager.verify_bundle, hnc]
  rfl

/-- C4: in every manager state reachable from the empty registry via
`deploy`, `remove`, `load_all` (and store mutation), the registry has unique
keys and no two entries claim the same domain; and because `verify_bundle`
compares only against entries with a *different* identifier, a redeploy of
an identifier onto the domain its own Active entry already holds runs the
full pipeline to success, replacing the entry. -/
theorem registry_domain_uniqueness :
    (∀ m : BundleManager, Reach m → RegistryInv m.bundles) ∧
    (∀ (m : BundleManager) (td : Except Err Nat) (root : Nat) (id : Ulid) (b : ActiveBundle)
        (cfg : BundleConfig) (stats : Statistics),
      RegistryInv m.bundles →
      m.bundles.lookup id = some (.Active b) →
      BundleStorage.metadata m.storage id = .ok cfg →
      cfg.domain = b.config.domain →
      td = .ok root →
      BundleStorage.unpack m.storage id = .ok () →
      m.compressor.compress (m.storage.walkOf id) cfg.compress = .ok stats →
      m.deploy td id = (.ok stats, { m with bundles := (m.bundles.insert id
        (.Active { root := root, config := cfg, stats := stats })) })) := by
  constructor
  · intro m h
    induction h with
    | init s c => exact ⟨List.nodup_nil, List.Pairwise.nil⟩
    | deploy td id hm ih => exact registryInv_deploy _ td id ih
    | remove id hm ih => exact registryInv_filter _ _ ih
    | load_all td hm ih => exact registryInv_loadAllGo td _ _ ih
    | setStore s hm ih => exact ih
  · intro m td root id b cfg stats hinv hA hmeta hdom htd hu hc
    subst htd
    have hv := verify_ok_of_inv m id b cfg hinv hA hdom
    simp only [BundleManager.deploy, hmeta, hv, hu, hc]

theorem registry_domain_uniqueness_witness :
    RegistryInv (BundleManager.bundles
      { bundles := [], storage := [], compressor := Compressor.defaultConfig }) ∧
    mSelf.deploy (.ok 1) 0 = (.ok stats0, { mSelf with bundles := (mSelf.bundles.insert 0
      (.Active { root := 1, config := cfgA, stats := stats0 })) }) :=
  ⟨registry_domain_uniqueness.1 _ (Reach.init [] Compressor.defaultConfig),
   registry_domain_uniqueness.2 mSelf (.ok 1) 1 0
     { root := 0, config := cfgA, stats := stats0 } cfgA stats0
     (by constructor
         · decide
         · exact List.pairwise_singleton _ _)
     rfl rfl rfl rfl rfl rfl⟩

end Launch
